import Mathlib

/-!
Verification of the findutils expression engine
(`src/find/matchers/mod.rs`, `src/find/matchers/logical_matchers.rs`,
`src/find/matchers/printer.rs`).

The matcher trait objects are embedded as a closed inductive `Matcher`.
Evaluation of `matches` is embedded as `run`, which returns the boolean
result together with the ordered trace of observable events (paths printed
by `Printer::matches`, and invocation marks of instrumented leaves), so
that short-circuiting and side-effect ordering are visible in the model.
The recursive-descent builder `build_matcher_tree` is embedded as
`buildTree`, with `Result::Err` and `unwrap` panics distinguished in the
error type.
-/

namespace Findutils

/-- A filesystem entry, reduced to the one capability the engine uses:
its path (`file_info.path()` in `Printer::matches`). -/
abbrev Entry := String

/-- Observable events of one `matches` call: a path written to the output
sink by `Printer::matches`, or the invocation mark of an instrumented
external leaf (the test suite's instrumented matchers). -/
inductive Event where
  | print (path : Entry)
  | invoke (id : Nat)
deriving DecidableEq, Repr

/-- The closed space of matchers. `mtrue`/`mfalse` are
`TrueMatcher`/`FalseMatcher`; `printer` is `Printer`; `leaf` stands for an
externally supplied leaf predicate (an arbitrary pure predicate on the
entry, an instrumentation id, and its reported side-effect flag);
`mnot` is `NotMatcher`; `mand` is `AndMatcher` over its `submatchers`
vector; `mor` is `OrMatcher` (whose branches the builder only ever fills
with `AndMatcher`s, but whose evaluation is uniform); `mlist` is
`ListMatcher`. -/
inductive Matcher where
  | mtrue
  | mfalse
  | printer
  | leaf (id : Nat) (f : Entry → Bool) (fx : Bool)
  | mnot (m : Matcher)
  | mand (submatchers : List Matcher)
  | mor (submatchers : List Matcher)
  | mlist (submatchers : List Matcher)

mutual

/-- `Matcher::matches`, returning the result together with the event
trace. `TrueMatcher::matches` is constantly true, `FalseMatcher::matches`
constantly false, `Printer::matches` writes the path and returns true,
`NotMatcher::matches` negates its submatcher. -/
def run : Matcher → Entry → Bool × List Event
  | .mtrue, _ => (true, [])
  | .mfalse, _ => (false, [])
  | .printer, e => (true, [.print e])
  | .leaf id f _, e => (f e, [.invoke id])
  | .mnot m, e =>
    let r := run m e
    (!r.1, r.2)
  | .mand cs, e => runAll cs e
  | .mor cs, e => runAny cs e
  | .mlist cs, e => runList cs e

/-- `AndMatcher::matches`: `self.submatchers.iter().all(|x| x.matches(d))`,
with Rust's short-circuiting `all` — on the first submatcher returning
false, later submatchers are not called. -/
def runAll : List Matcher → Entry → Bool × List Event
  | [], _ => (true, [])
  | c :: cs, e =>
    let r := run c e
    if r.1 then
      let r' := runAll cs e
      (r'.1, r.2 ++ r'.2)
    else
      (false, r.2)

/-- `OrMatcher::matches`: `self.submatchers.iter().any(|x| x.matches(d))`,
with Rust's short-circuiting `any` — on the first submatcher returning
true, later submatchers are not called. -/
def runAny : List Matcher → Entry → Bool × List Event
  | [], _ => (false, [])
  | c :: cs, e =>
    let r := run c e
    if r.1 then
      (true, r.2)
    else
      let r' := runAny cs e
      (r'.1, r.2 ++ r'.2)

/-- `ListMatcher::matches`: `rc` starts false, every submatcher is called
unconditionally and overwrites `rc`; the final `rc` is returned. -/
def runList : List Matcher → Entry → Bool × List Event
  | [], _ => (false, [])
  | [c], e => run c e
  | c :: cs, e =>
    let r := run c e
    let r' := runList cs e
    (r'.1, r.2 ++ r'.2)

end

mutual

/-- `Matcher::has_side_effects`. `TrueMatcher`/`FalseMatcher` report
false, `Printer` reports true, a leaf reports its flag, `NotMatcher`
passes through to its submatcher, and the three collection matchers ask
`iter().any(|x| x.has_side_effects())`. -/
def hasSideEffects : Matcher → Bool
  | .mtrue => false
  | .mfalse => false
  | .printer => true
  | .leaf _ _ fx => fx
  | .mnot m => hasSideEffects m
  | .mand cs => anySideEffects cs
  | .mor cs => anySideEffects cs
  | .mlist cs => anySideEffects cs

/-- `iter().any(|x| x.has_side_effects())` over a submatcher vector. -/
def anySideEffects : List Matcher → Bool
  | [] => false
  | c :: cs => hasSideEffects c || anySideEffects cs

end

/-- Modelled from the spec: the traversal configuration owned by the
walker; the builder only ever mutates its depth-first/pre-order flag
(token `-d`/`-depth`). -/
structure Config where
  depth_first : Bool
deriving DecidableEq, Repr

/-- Outcome of a fallible builder step: an ordinary `Result::Err` with its
message, or a panic from an `unwrap` on an empty vector. -/
inductive BuildErr where
  | err (msg : String)
  | panic
deriving DecidableEq, Repr

/-- The in-progress `OrMatcher` of the builder: its vector of `AndMatcher`
branches, each branch being its vector of submatchers. -/
abbrev OrS := List (List Matcher)

/-- The in-progress `ListMatcher` of the builder: its vector of
`OrMatcher` statements. -/
abbrev LState := List OrS

/-- `OrMatcher::new()`: one empty `AndMatcher` branch. -/
def OrS.new : OrS := [[]]

/-- `ListMatcher::new()`: one fresh `OrMatcher` statement. -/
def LState.new : LState := [OrS.new]

/-- `OrMatcher::new_and_condition`:
`self.submatchers.last_mut().unwrap().new_and_condition(matcher)` — panics
when the branch vector is empty, else pushes into the last branch. -/
def OrS.newAndCondition (o : OrS) (m : Matcher) : Except BuildErr OrS :=
  match o.getLast? with
  | none => .error .panic
  | some br => .ok (o.dropLast ++ [br ++ [m]])

/-- `OrMatcher::new_or_condition`: unwraps the last branch (panic when the
branch vector is empty); errors when that branch is empty; else pushes a
fresh `AndMatcher` branch. -/
def OrS.newOrCondition (o : OrS) (arg : String) : Except BuildErr OrS :=
  match o.getLast? with
  | none => .error .panic
  | some br =>
    if br.isEmpty then
      .error (.err ("invalid expression; you have used a binary operator '" ++ arg ++
        "' with nothing before it."))
    else
      .ok (o ++ [[]])

/-- `ListMatcher::new_and_condition`: unwraps the last statement (panic
when the statement vector is empty) and delegates to its
`OrMatcher::new_and_condition`. -/
def LState.newAndCondition (l : LState) (m : Matcher) : Except BuildErr LState :=
  match l.getLast? with
  | none => .error .panic
  | some o =>
    match OrS.newAndCondition o m with
    | .error e => .error e
    | .ok o' => .ok (l.dropLast ++ [o'])

/-- `ListMatcher::new_or_condition`: unwraps the last statement and
delegates to its `OrMatcher::new_or_condition`. -/
def LState.newOrCondition (l : LState) (arg : String) : Except BuildErr LState :=
  match l.getLast? with
  | none => .error .panic
  | some o =>
    match OrS.newOrCondition o arg with
    | .error e => .error e
    | .ok o' => .ok (l.dropLast ++ [o'])

/-- `ListMatcher::new_list_condition`: unwraps the last statement and its
last branch (panic when either vector is empty); errors when that branch
is empty; else pushes a fresh `OrMatcher` statement. -/
def LState.newListCondition (l : LState) : Except BuildErr LState :=
  match l.getLast? with
  | none => .error .panic
  | some o =>
    match o.getLast? with
    | none => .error .panic
    | some br =>
      if br.isEmpty then
        .error (.err ("invalid expression; you have used a binary operator ',' " ++
          "with nothing before it."))
      else
        .ok (l ++ [OrS.new])

/-- The finished `OrMatcher` value of an in-progress `OrS`. -/
def OrS.toMatcher (o : OrS) : Matcher := .mor (o.map .mand)

/-- The finished `ListMatcher` value of an in-progress `LState`. -/
def LState.toMatcher (l : LState) : Matcher := .mlist (l.map OrS.toMatcher)

/-- The `OrMatcher` states reachable from `OrMatcher::new()` by successful
applications of its two mutating methods. -/
inductive OrReachable : OrS → Prop where
  | new : OrReachable OrS.new
  | andCond {o o' : OrS} {m : Matcher} : OrReachable o →
      OrS.newAndCondition o m = .ok o' → OrReachable o'
  | orCond {o o' : OrS} {a : String} : OrReachable o →
      OrS.newOrCondition o a = .ok o' → OrReachable o'

/-- The `ListMatcher` states reachable from `ListMatcher::new()` by
successful applications of its three mutating methods. -/
inductive LReachable : LState → Prop where
  | new : LReachable LState.new
  | andCond {l l' : LState} {m : Matcher} : LReachable l →
      LState.newAndCondition l m = .ok l' → LReachable l'
  | orCond {l l' : LState} {a : String} : LReachable l →
      LState.newOrCondition l a = .ok l' → LReachable l'
  | listCond {l l' : LState} : LReachable l →
      LState.newListCondition l = .ok l' → LReachable l'

/-- `are_more_expressions(args, i)` seen from the suffix of tokens after
position `i`: a next token exists and is not a closing bracket. -/
def areMoreExpressions (rest : List String) : Bool :=
  match rest with
  | [] => false
  | t :: _ => t ≠ ")"

/-- Modelled from the spec: the external leaf-predicate factories
(`NameMatcher::new`, `CaselessNameMatcher::new`, `TypeMatcher::new` live
outside the given sources). A factory receives the flag and its argument
token and returns a constructed leaf matcher or a construction error. -/
abbrev Factory := String → String → Except String Matcher

/-- `build_matcher_tree`, with the cursor index replaced by the suffix of
tokens not yet consumed and the loop locals (`top_level_matcher`,
`invert_next_matcher`) passed explicitly. `fuel` bounds the recursion
depth; every call consumes at least one token, so any `fuel` exceeding the
token count never reaches the exhaustion branch. A successful return is
the remaining suffix (the source's new index), the built matcher, and the
updated configuration. -/
def buildTree (fac : Factory) : Nat → List String → Config → Bool → LState → Bool →
    Except BuildErr (List String × Matcher × Config)
  | _, [], config, expectingBracket, tlm, _ =>
    if expectingBracket then
      .error (.err ("invalid expression; I was expecting to find a ')' somewhere " ++
        "but did not see one."))
    else
      .ok ([], tlm.toMatcher, config)
  | 0, _ :: _, _, _, _, _ => .error .panic
  | fuel + 1, tok :: rest, config, expectingBracket, tlm, invert =>
    match tok with
    | "-print" =>
      match tlm.newAndCondition (if invert then .mnot .printer else .printer) with
      | .error e => .error e
      | .ok tlm' => buildTree fac fuel rest config expectingBracket tlm' false
    | "-true" =>
      match tlm.newAndCondition (if invert then .mnot .mtrue else .mtrue) with
      | .error e => .error e
      | .ok tlm' => buildTree fac fuel rest config expectingBracket tlm' false
    | "-false" =>
      match tlm.newAndCondition (if invert then .mnot .mfalse else .mfalse) with
      | .error e => .error e
      | .ok tlm' => buildTree fac fuel rest config expectingBracket tlm' false
    | "-name" | "-iname" | "-type" =>
      match rest with
      | [] => .error (.err ("missing argument to " ++ tok))
      | pat :: rest' =>
        match fac tok pat with
        | .error msg => .error (.err msg)
        | .ok sub =>
          match tlm.newAndCondition (if invert then .mnot sub else sub) with
          | .error e => .error e
          | .ok tlm' => buildTree fac fuel rest' config expectingBracket tlm' false
    | "-not" | "!" =>
      if areMoreExpressions rest then
        buildTree fac fuel rest config expectingBracket tlm true
      else
        .error (.err ("expected an expression after " ++ tok))
    | "-or" | "-o" =>
      if areMoreExpressions rest then
        match tlm.newOrCondition tok with
        | .error e => .error e
        | .ok tlm' => buildTree fac fuel rest config expectingBracket tlm' invert
      else
        .error (.err ("expected an expression after " ++ tok))
    | "," =>
      if areMoreExpressions rest then
        match tlm.newListCondition with
        | .error e => .error e
        | .ok tlm' => buildTree fac fuel rest config expectingBracket tlm' invert
      else
        .error (.err ("expected an expression after " ++ tok))
    | "(" =>
      match buildTree fac fuel rest config true LState.new false with
      | .error e => .error e
      | .ok (rem, sub, config') =>
        match tlm.newAndCondition (if invert then .mnot sub else sub) with
        | .error e => .error e
        | .ok tlm' => buildTree fac fuel (rem.drop 1) config' expectingBracket tlm' false
    | ")" =>
      if expectingBracket then
        .ok (tok :: rest, tlm.toMatcher, config)
      else
        .error (.err ("you have too many ')'"))
    | "-d" | "-depth" =>
      buildTree fac fuel rest { config with depth_first := true } expectingBracket tlm invert
    | other => .error (.err ("Unrecognized flag: '" ++ other ++ "'"))

/-- The external entry of `build_matcher_tree`: fresh loop locals and
ample fuel. -/
def buildMatcherTree (fac : Factory) (args : List String) (config : Config)
    (expectingBracket : Bool) : Except BuildErr (List String × Matcher × Config) :=
  buildTree fac (args.length + 1) args config expectingBracket LState.new false

/-- `build_top_level_matcher`: build the tree; when the result reports no
side effects, wrap it in a fresh `AndMatcher` together with a `Printer`
leaf; otherwise return it unmodified. -/
def buildTopLevelMatcher (fac : Factory) (args : List String) (config : Config) :
    Except BuildErr (Matcher × Config) :=
  match buildMatcherTree fac args config false with
  | .error e => .error e
  | .ok (_, m, config') =>
    if hasSideEffects m then
      .ok (m, config')
    else
      .ok (.mand [m, .printer], config')

/-- A factory that is never consulted by the token sequences under study. -/
def defaultFac : Factory := fun _ _ => .error ("no factory")

/-- The tree built from the tokens `-true -o -false -false`:
one statement, two branches. -/
def scenarioC : Matcher := .mlist [.mor [.mand [.mtrue], .mand [.mfalse, .mfalse]]]

/-- The tree built from the tokens `( -true -o -false ) -false`:
one branch holding the whole group and the trailing `-false`. -/
def scenarioD : Matcher :=
  .mlist [.mor [.mand [.mlist [.mor [.mand [.mtrue], .mand [.mfalse]]], .mfalse]]]

/-- The effective root built from `-not -not -false`: the doubly negated
`FalseMatcher` collapses to a single negation, and the side-effect-free
tree gets the default print appended. -/
def doubleNotFalseRoot : Matcher := .mand [.mlist [.mor [.mand [.mnot .mfalse]]], .printer]

/-- The matcher of an empty bracketed group: a fresh `ListMatcher` holding
one `OrMatcher` holding one submatcher-less `AndMatcher`. -/
def emptyGroupMatcher : Matcher := LState.toMatcher LState.new

/-- The effective root built from the tokens `( )`. -/
def emptyGroupRoot : Matcher :=
  .mand [.mlist [.mor [.mand [emptyGroupMatcher]]], .printer]

/-- `AndMatcher::matches` returns the conjunction of the submatcher
results. -/
theorem runAll_fst (cs : List Matcher) (e : Entry) :
    (runAll cs e).1 = cs.all (fun c => (run c e).1) := by
  induction cs with
  | nil => simp [runAll]
  | cons c cs ih => by_cases h : (run c e).1 <;> simp [runAll, h, ih]

/-- `AndMatcher::matches` produces exactly the events of the submatchers
strictly before the first false one, followed by the events of that first
false submatcher when it exists: submatchers after it are not invoked. -/
theorem runAll_trace (cs : List Matcher) (e : Entry) :
    (runAll cs e).2 =
      (((cs.takeWhile fun c => (run c e).1) ++
        ((cs.dropWhile fun c => (run c e).1).take 1)).map (fun c => (run c e).2)).flatten := by
  induction cs with
  | nil => simp [runAll]
  | cons c cs ih =>
    by_cases h : (run c e).1
    · simp [runAll, h, List.takeWhile_cons, List.dropWhile_cons, ih]
    · simp [runAll, h, List.takeWhile_cons, List.dropWhile_cons]

/-- `OrMatcher::matches` returns the disjunction of the submatcher
results. -/
theorem runAny_fst (cs : List Matcher) (e : Entry) :
    (runAny cs e).1 = cs.any (fun c => (run c e).1) := by
  induction cs with
  | nil => simp [runAny]
  | cons c cs ih => by_cases h : (run c e).1 <;> simp [runAny, h, ih]

/-- `OrMatcher::matches` produces exactly the events of the submatchers
strictly before the first true one, followed by the events of that first
true submatcher when it exists: submatchers after it are not invoked. -/
theorem runAny_trace (cs : List Matcher) (e : Entry) :
    (runAny cs e).2 =
      (((cs.takeWhile fun c => !(run c e).1) ++
        ((cs.dropWhile fun c => !(run c e).1).take 1)).map (fun c => (run c e).2)).flatten := by
  induction cs with
  | nil => simp [runAny]
  | cons c cs ih =>
    by_cases h : (run c e).1
    · simp [runAny, h, List.takeWhile_cons, List.dropWhile_cons]
    · simp [runAny, h, List.takeWhile_cons, List.dropWhile_cons, ih]

/-- `ListMatcher::matches` returns the result of the last submatcher, and
false on an empty submatcher vector. -/
theorem runList_fst (cs : List Matcher) (e : Entry) :
    (runList cs e).1 = (cs.getLast?.map fun c => (run c e).1).getD false := by
  induction cs with
  | nil => simp [runList]
  | cons c cs ih =>
    cases cs with
    | nil => simp [runList]
    | cons c' cs' => simp [runList, List.getLast?_cons_cons] at ih ⊢; exact ih

/-- `ListMatcher::matches` produces exactly the events of every
submatcher, in order: no short-circuiting. -/
theorem runList_trace (cs : List Matcher) (e : Entry) :
    (runList cs e).2 = (cs.map fun c => (run c e).2).flatten := by
  induction cs with
  | nil => simp [runList]
  | cons c cs ih =>
    cases cs with
    | nil => simp [runList]
    | cons c' cs' => simp [runList] at ih ⊢; simp [ih]

mutual

/-- A matcher reporting no side effects prints nothing when evaluated. -/
theorem run_no_print : ∀ (m : Matcher) (e p : Entry), hasSideEffects m = false →
    Event.print p ∉ (run m e).2
  | .mtrue, _, _, _ => by simp [run]
  | .mfalse, _, _, _ => by simp [run]
  | .printer, _, _, h => by simp [hasSideEffects] at h
  | .leaf i f fx, _, _, _ => by simp [run]
  | .mnot m, e, p, h => by
    simp only [run]
    exact run_no_print m e p (by simpa [hasSideEffects] using h)
  | .mand cs, e, p, h => by
    simp only [run]
    exact (runs_no_print cs e p (by simpa [hasSideEffects] using h)).1
  | .mor cs, e, p, h => by
    simp only [run]
    exact (runs_no_print cs e p (by simpa [hasSideEffects] using h)).2.1
  | .mlist cs, e, p, h => by
    simp only [run]
    exact (runs_no_print cs e p (by simpa [hasSideEffects] using h)).2.2

/-- A submatcher vector reporting no side effects prints nothing under
any of the three collection evaluations. -/
theorem runs_no_print : ∀ (cs : List Matcher) (e p : Entry), anySideEffects cs = false →
    Event.print p ∉ (runAll cs e).2 ∧ Event.print p ∉ (runAny cs e).2 ∧
      Event.print p ∉ (runList cs e).2
  | [], e, p, _ => by simp [runAll, runAny, runList]
  | c :: cs, e, p, h => by
    have hc : hasSideEffects c = false := by
      simp [anySideEffects] at h
      exact h.1
    have hcs : anySideEffects cs = false := by
      simp [anySideEffects] at h
      exact h.2
    have h1 := run_no_print c e p hc
    have h2 := runs_no_print cs e p hcs
    refine ⟨?_, ?_, ?_⟩
    · by_cases hr : (run c e).1 <;> simp [runAll, hr, h1, h2.1]
    · by_cases hr : (run c e).1 <;> simp [runAny, hr, h1, h2.2.1]
    · cases cs with
      | nil => simpa [runList] using h1
      | cons c' cs' =>
        simp [runList]
        exact ⟨h1, h2.2.2⟩

end

/-- C3: for every `ListMatcher` and every entry, `matches` invokes every
statement exactly once, in append order, with no short-circuiting (the
event trace is the concatenation of all statement traces in order), and
returns the result of the last statement; with no statements the result
is false. -/
theorem listMatcher_all_statements_last_result (ss : List Matcher) (e : Entry) :
    (run (.mlist ss) e).1 = (ss.getLast?.map fun s => (run s e).1).getD false ∧
    (run (.mlist ss) e).2 = (ss.map fun s => (run s e).2).flatten ∧
    (run (.mlist ([] : List Matcher)) e).1 = false := by
  refine ⟨?_, ?_, by simp [run, runList]⟩
  · simpa [run] using runList_fst ss e
  · simpa [run] using runList_trace ss e

/-- C4: for every `AndMatcher` and every entry, `matches` is true iff
every submatcher matches (zero submatchers give true), submatchers are
invoked in append order, and no submatcher after the first false one is
invoked: the event trace is exactly the traces of the submatchers up to
and including the first false one. -/
theorem andMatcher_conjunction_short_circuit (cs : List Matcher) (e : Entry) :
    ((run (.mand cs) e).1 = true ↔ ∀ c ∈ cs, (run c e).1 = true) ∧
    (run (.mand ([] : List Matcher)) e).1 = true ∧
    (run (.mand cs) e).2 =
      (((cs.takeWhile fun c => (run c e).1) ++
        ((cs.dropWhile fun c => (run c e).1).take 1)).map (fun c => (run c e).2)).flatten := by
  refine ⟨?_, by simp [run, runAll], by simpa [run] using runAll_trace cs e⟩
  rw [show (run (.mand cs) e).1 = cs.all (fun c => (run c e).1) from by
    simpa [run] using runAll_fst cs e]
  simp [List.all_eq_true]

/-- C5: for every `OrMatcher` and every entry, `matches` is true iff some
submatcher matches (zero submatchers give false), submatchers are invoked
in append order, and no submatcher after the first true one is invoked:
the event trace is exactly the traces of the submatchers up to and
including the first true one. -/
theorem orMatcher_disjunction_short_circuit (cs : List Matcher) (e : Entry) :
    ((run (.mor cs) e).1 = true ↔ ∃ c ∈ cs, (run c e).1 = true) ∧
    (run (.mor ([] : List Matcher)) e).1 = false ∧
    (run (.mor cs) e).2 =
      (((cs.takeWhile fun c => !(run c e).1) ++
        ((cs.dropWhile fun c => !(run c e).1).take 1)).map (fun c => (run c e).2)).flatten := by
  refine ⟨?_, by simp [run, runAny], by simpa [run] using runAny_trace cs e⟩
  rw [show (run (.mor cs) e).1 = cs.any (fun c => (run c e).1) from by
    simpa [run] using runAny_fst cs e]
  simp [List.any_eq_true]

/-- C7: for every `NotMatcher` and every entry, `matches` is the boolean
negation of the submatcher result, and `has_side_effects` is exactly the
submatcher's value. -/
theorem notMatcher_negation_side_effects (m : Matcher) (e : Entry) :
    (run (.mnot m) e).1 = !(run m e).1 ∧
    hasSideEffects (.mnot m) = hasSideEffects m := by
  constructor <;> simp [run, hasSideEffects]

/-- C1: implicit AND binds tighter than `-o`, and brackets override this:
`build_matcher_tree` on `-true -o -false -false` yields a tree matching
every entry (True OR (False AND False)), while on
`( -true -o -false ) -false` it yields a tree matching no entry
((True OR False) AND False). -/
theorem precedence_and_brackets (fac : Factory) (cfg : Config) (e : Entry) :
    buildMatcherTree fac ["-true", "-o", "-false", "-false"] cfg false =
      .ok ([], scenarioC, cfg) ∧
    (run scenarioC e).1 = true ∧
    buildMatcherTree fac ["(", "-true", "-o", "-false", ")", "-false"] cfg false =
      .ok ([], scenarioD, cfg) ∧
    (run scenarioD e).1 = false :=
  ⟨rfl, rfl, rfl, rfl⟩

/-- C6: a `-o`/`-or` (or `,`) operator arriving while the currently-open
branch (for `,`: the current statement's current branch) has no children
fails with the "binary operator ... with nothing before it" error; in
particular the token sequences `-o -true` and `, -true` build no matcher
and return exactly that error. -/
theorem binary_operator_nothing_before (l : LState) (o : OrS) (arg : String)
    (fac : Factory) (cfg : Config)
    (h1 : l.getLast? = some o) (h2 : o.getLast? = some []) :
    LState.newOrCondition l arg =
      .error (.err ("invalid expression; you have used a binary operator '" ++ arg ++
        "' with nothing before it.")) ∧
    LState.newListCondition l =
      .error (.err ("invalid expression; you have used a binary operator ',' " ++
        "with nothing before it.")) ∧
    buildTopLevelMatcher fac ["-o", "-true"] cfg =
      .error (.err ("invalid expression; you have used a binary operator '-o' " ++
        "with nothing before it.")) ∧
    buildTopLevelMatcher fac [",", "-true"] cfg =
      .error (.err ("invalid expression; you have used a binary operator ',' " ++
        "with nothing before it.")) := by
  refine ⟨?_, ?_, rfl, rfl⟩
  · simp [LState.newOrCondition, h1, OrS.newOrCondition, h2]
  · simp [LState.newListCondition, h1, h2]

/-- Witness for C6 at the freshly constructed builder state. -/
theorem binary_operator_nothing_before_witness :
    LState.new.getLast? = some OrS.new ∧ OrS.new.getLast? = some [] ∧
    (LState.newOrCondition LState.new ("-o") =
      .error (.err ("invalid expression; you have used a binary operator '-o' " ++
        "with nothing before it.")) ∧
    LState.newListCondition LState.new =
      .error (.err ("invalid expression; you have used a binary operator ',' " ++
        "with nothing before it.")) ∧
    buildTopLevelMatcher defaultFac ["-o", "-true"] ⟨false⟩ =
      .error (.err ("invalid expression; you have used a binary operator '-o' " ++
        "with nothing before it.")) ∧
    buildTopLevelMatcher defaultFac [",", "-true"] ⟨false⟩ =
      .error (.err ("invalid expression; you have used a binary operator ',' " ++
        "with nothing before it."))) :=
  ⟨rfl, rfl, by
    simpa using binary_operator_nothing_before LState.new OrS.new ("-o") defaultFac ⟨false⟩
      rfl rfl⟩

/-- C9: consecutive negation tokens merely re-set the pending-negation
flag, so `-not -not t` builds the same matcher as `-not t` for each leaf
token `t`; in particular `-not -not -false` builds successfully and its
effective root matches every entry. -/
theorem repeated_not_collapses (t : String)
    (ht : t = "-print" ∨ t = "-true" ∨ t = "-false")
    (fac : Factory) (cfg : Config) (e : Entry) :
    buildTopLevelMatcher fac ["-not", "-not", t] cfg =
      buildTopLevelMatcher fac ["-not", t] cfg ∧
    buildTopLevelMatcher fac ["-not", "-not", "-false"] cfg = .ok (doubleNotFalseRoot, cfg) ∧
    (run doubleNotFalseRoot e).1 = true := by
  refine ⟨?_, rfl, rfl⟩
  rcases ht with h | h | h <;> subst h <;> rfl

/-- Witness for C9 at the leaf token `-false`. -/
theorem repeated_not_collapses_witness :
    (("-false" : String) = "-print" ∨ ("-false" : String) = "-true" ∨
      ("-false" : String) = "-false") ∧
    (buildTopLevelMatcher defaultFac ["-not", "-not", "-false"] ⟨false⟩ =
      buildTopLevelMatcher defaultFac ["-not", "-false"] ⟨false⟩ ∧
    buildTopLevelMatcher defaultFac ["-not", "-not", "-false"] ⟨false⟩ =
      .ok (doubleNotFalseRoot, ⟨false⟩) ∧
    (run doubleNotFalseRoot ("p")).1 = true) :=
  ⟨Or.inr (Or.inr rfl),
   repeated_not_collapses ("-false") (Or.inr (Or.inr rfl)) defaultFac ⟨false⟩ ("p")⟩

/-- C10: an empty bracketed group is accepted: `( )` builds successfully,
the empty group's matcher returns true on every entry with no events and
reports no side effects, and the effective root of `( )` alone matches
and prints every entry. -/
theorem empty_group_accepted (fac : Factory) (cfg : Config) (e : Entry) :
    buildTopLevelMatcher fac ["(", ")"] cfg = .ok (emptyGroupRoot, cfg) ∧
    run emptyGroupMatcher e = (true, []) ∧
    hasSideEffects emptyGroupMatcher = false ∧
    (run emptyGroupRoot e).1 = true ∧
    (run emptyGroupRoot e).2 = [.print e] :=
  ⟨rfl, rfl, rfl, rfl, rfl⟩

/-- An element named by `getLast?` is a member of the list. -/
theorem lastSomeMem {α : Type} {l : List α} {a : α} (h : l.getLast? = some a) : a ∈ l := by
  obtain ⟨hne, rfl⟩ := List.mem_getLast?_eq_getLast (by simpa using h)
  exact List.getLast_mem hne

/-- Inversion of a successful `OrMatcher::new_and_condition`. -/
theorem orS_newAndCondition_ok {o o' : OrS} {m : Matcher}
    (h : OrS.newAndCondition o m = .ok o') :
    ∃ br, o.getLast? = some br ∧ o' = o.dropLast ++ [br ++ [m]] := by
  unfold OrS.newAndCondition at h
  cases ho : o.getLast? with
  | none => simp only [ho] at h; cases h
  | some br =>
    simp only [ho, Except.ok.injEq] at h
    exact ⟨br, rfl, h.symm⟩

/-- Inversion of a successful `OrMatcher::new_or_condition`. -/
theorem orS_newOrCondition_ok {o o' : OrS} {a : String}
    (h : OrS.newOrCondition o a = .ok o') :
    ∃ br, o.getLast? = some br ∧ br ≠ [] ∧ o' = o ++ [[]] := by
  unfold OrS.newOrCondition at h
  cases ho : o.getLast? with
  | none => simp only [ho] at h; cases h
  | some br =>
    simp only [ho] at h
    by_cases hbr : br.isEmpty
    · simp only [if_pos hbr] at h; cases h
    · simp only [if_neg hbr, Except.ok.injEq] at h
      exact ⟨br, rfl, by simpa using hbr, h.symm⟩

/-- A successful `OrMatcher::new_and_condition` leaves the branch vector
non-empty. -/
theorem orS_newAndCondition_ok_ne_nil {o o' : OrS} {m : Matcher}
    (h : OrS.newAndCondition o m = .ok o') : o' ≠ [] := by
  obtain ⟨br, -, rfl⟩ := orS_newAndCondition_ok h
  simp

/-- A successful `OrMatcher::new_or_condition` leaves the branch vector
non-empty. -/
theorem orS_newOrCondition_ok_ne_nil {o o' : OrS} {a : String}
    (h : OrS.newOrCondition o a = .ok o') : o' ≠ [] := by
  obtain ⟨br, -, -, rfl⟩ := orS_newOrCondition_ok h
  simp

/-- Every reachable `OrMatcher` state holds at least one branch. -/
theorem orReachable_ne_nil {o : OrS} (h : OrReachable o) : o ≠ [] := by
  induction h with
  | new => simp [OrS.new]
  | andCond _ heq _ => exact orS_newAndCondition_ok_ne_nil heq
  | orCond _ heq _ => exact orS_newOrCondition_ok_ne_nil heq

/-- Inversion of a successful `ListMatcher::new_and_condition`. -/
theorem lState_newAndCondition_ok {l l' : LState} {m : Matcher}
    (h : LState.newAndCondition l m = .ok l') :
    ∃ o o', l.getLast? = some o ∧ OrS.newAndCondition o m = .ok o' ∧
      l' = l.dropLast ++ [o'] := by
  unfold LState.newAndCondition at h
  cases hl : l.getLast? with
  | none => simp only [hl] at h; cases h
  | some o =>
    simp only [hl] at h
    cases hoc : OrS.newAndCondition o m with
    | error e => simp only [hoc] at h; cases h
    | ok o' =>
      simp only [hoc, Except.ok.injEq] at h
      exact ⟨o, o', rfl, hoc, h.symm⟩

/-- Inversion of a successful `ListMatcher::new_or_condition`. -/
theorem lState_newOrCondition_ok {l l' : LState} {a : String}
    (h : LState.newOrCondition l a = .ok l') :
    ∃ o o', l.getLast? = some o ∧ OrS.newOrCondition o a = .ok o' ∧
      l' = l.dropLast ++ [o'] := by
  unfold LState.newOrCondition at h
  cases hl : l.getLast? with
  | none => simp only [hl] at h; cases h
  | some o =>
    simp only [hl] at h
    cases hoc : OrS.newOrCondition o a with
    | error e => simp only [hoc] at h; cases h
    | ok o' =>
      simp only [hoc, Except.ok.injEq] at h
      exact ⟨o, o', rfl, hoc, h.symm⟩

/-- Inversion of a successful `ListMatcher::new_list_condition`. -/
theorem lState_newListCondition_ok {l l' : LState}
    (h : LState.newListCondition l = .ok l') : l' = l ++ [OrS.new] := by
  unfold LState.newListCondition at h
  cases hl : l.getLast? with
  | none => simp only [hl] at h; cases h
  | some o =>
    simp only [hl] at h
    cases ho : o.getLast? with
    | none => simp only [ho] at h; cases h
    | some br =>
      simp only [ho] at h
      by_cases hbr : br.isEmpty
      · simp only [if_pos hbr] at h; cases h
      · simp only [if_neg hbr, Except.ok.injEq] at h
        exact h.symm

/-- On a non-empty branch vector, neither `OrMatcher` mutating method
reaches its `unwrap` panic. -/
theorem orS_ops_no_panic {o : OrS} (h : o ≠ []) :
    (∀ m : Matcher, OrS.newAndCondition o m ≠ .error .panic) ∧
    (∀ a : String, OrS.newOrCondition o a ≠ .error .panic) := by
  obtain ⟨br, hbr⟩ : ∃ br, o.getLast? = some br := by
    cases ho : o.getLast? with
    | none => exact absurd (List.getLast?_eq_none_iff.mp ho) h
    | some br => exact ⟨br, rfl⟩
  constructor
  · intro m
    simp [OrS.newAndCondition, hbr]
  · intro a
    simp only [OrS.newOrCondition, hbr]
    split <;> simp

/-- Every reachable `ListMatcher` state holds at least one statement, and
each statement holds at least one branch. -/
theorem lReachable_inv {l : LState} (h : LReachable l) :
    l ≠ [] ∧ ∀ o ∈ l, o ≠ [] := by
  induction h with
  | new =>
    refine ⟨by simp [LState.new], ?_⟩
    intro o ho
    simp [LState.new] at ho
    subst ho
    simp [OrS.new]
  | @andCond l l' m _ heq ih =>
    obtain ⟨o, o', hl, hoc, rfl⟩ := lState_newAndCondition_ok heq
    refine ⟨by simp, ?_⟩
    intro x hx
    rcases List.mem_append.mp hx with hx | hx
    · exact ih.2 x (List.dropLast_subset l hx)
    · simp at hx
      subst hx
      exact orS_newAndCondition_ok_ne_nil hoc
  | @orCond l l' a _ heq ih =>
    obtain ⟨o, o', hl, hoc, rfl⟩ := lState_newOrCondition_ok heq
    refine ⟨by simp, ?_⟩
    intro x hx
    rcases List.mem_append.mp hx with hx | hx
    · exact ih.2 x (List.dropLast_subset l hx)
    · simp at hx
      subst hx
      exact orS_newOrCondition_ok_ne_nil hoc
  | @listCond l l' _ heq ih =>
    obtain rfl := lState_newListCondition_ok heq
    refine ⟨by simp, ?_⟩
    intro x hx
    rcases List.mem_append.mp hx with hx | hx
    · exact ih.2 x hx
    · simp at hx
      subst hx
      simp [OrS.new]

/-- On a `ListMatcher` state satisfying the invariant, none of the three
mutating methods reaches an `unwrap` panic. -/
theorem lState_ops_no_panic {l : LState} (h1 : l ≠ []) (h2 : ∀ o ∈ l, o ≠ []) :
    (∀ m : Matcher, LState.newAndCondition l m ≠ .error .panic) ∧
    (∀ a : String, LState.newOrCondition l a ≠ .error .panic) ∧
    LState.newListCondition l ≠ .error .panic := by
  obtain ⟨o, ho⟩ : ∃ o, l.getLast? = some o := by
    cases hl : l.getLast? with
    | none => exact absurd (List.getLast?_eq_none_iff.mp hl) h1
    | some o => exact ⟨o, rfl⟩
  have hone : o ≠ [] := h2 o (lastSomeMem ho)
  obtain ⟨br, hbr⟩ : ∃ br, o.getLast? = some br := by
    cases hb : o.getLast? with
    | none => exact absurd (List.getLast?_eq_none_iff.mp hb) hone
    | some br => exact ⟨br, rfl⟩
  refine ⟨?_, ?_, ?_⟩
  · intro m
    simp [LState.newAndCondition, ho, OrS.newAndCondition, hbr]
  · intro a
    simp only [LState.newOrCondition, ho, OrS.newOrCondition, hbr]
    by_cases hbre : br.isEmpty
    · simp [if_pos hbre]
    · simp [if_neg hbre]
  · simp only [LState.newListCondition, ho, hbr]
    by_cases hbre : br.isEmpty
    · simp [if_pos hbre]
    · simp [if_neg hbre]

/-- C8: every `OrMatcher` reachable from `new()` through its two mutating
methods always holds at least one branch, every `ListMatcher` reachable
from `new()` through its three mutating methods always holds at least one
statement (each itself non-empty), and consequently none of the
`last()/last_mut()` `unwrap` calls inside `new_and_condition`,
`new_or_condition` and `new_list_condition` can panic. -/
theorem builder_invariants_no_panic :
    (∀ o : OrS, OrReachable o → o ≠ [] ∧
      (∀ m : Matcher, OrS.newAndCondition o m ≠ .error .panic) ∧
      (∀ a : String, OrS.newOrCondition o a ≠ .error .panic)) ∧
    (∀ l : LState, LReachable l → (l ≠ [] ∧ ∀ o ∈ l, o ≠ []) ∧
      (∀ m : Matcher, LState.newAndCondition l m ≠ .error .panic) ∧
      (∀ a : String, LState.newOrCondition l a ≠ .error .panic) ∧
      LState.newListCondition l ≠ .error .panic) := by
  constructor
  · intro o h
    have hne := orReachable_ne_nil h
    exact ⟨hne, orS_ops_no_panic hne⟩
  · intro l h
    have hinv := lReachable_inv h
    exact ⟨hinv, lState_ops_no_panic hinv.1 hinv.2⟩

/-- Witness for C8 at the freshly constructed states. -/
theorem builder_invariants_no_panic_witness :
    OrReachable OrS.new ∧ LReachable LState.new ∧
    (OrS.new ≠ [] ∧
      (∀ m : Matcher, OrS.newAndCondition OrS.new m ≠ .error .panic) ∧
      (∀ a : String, OrS.newOrCondition OrS.new a ≠ .error .panic)) ∧
    ((LState.new ≠ [] ∧ ∀ o ∈ LState.new, o ≠ []) ∧
      (∀ m : Matcher, LState.newAndCondition LState.new m ≠ .error .panic) ∧
      (∀ a : String, LState.newOrCondition LState.new a ≠ .error .panic) ∧
      LState.newListCondition LState.new ≠ .error .panic) :=
  ⟨.new, .new, builder_invariants_no_panic.1 OrS.new .new,
    builder_invariants_no_panic.2 LState.new .new⟩

/-- C2: after a successful build, a side-effect-free tree is wrapped in a
fresh `AndMatcher` together with a `Printer` leaf — the effective root
then matches exactly when the built tree matches, and prints the path
exactly when it matches — while a tree with side effects is returned
unmodified. -/
theorem default_print_injection (fac : Factory) (args : List String)
    (config c : Config) (rem : List String) (m : Matcher)
    (h : buildMatcherTree fac args config false = .ok (rem, m, c)) (e : Entry) :
    (hasSideEffects m = false →
      buildTopLevelMatcher fac args config = .ok (.mand [m, .printer], c) ∧
      (run (.mand [m, .printer]) e).1 = (run m e).1 ∧
      (Event.print e ∈ (run (.mand [m, .printer]) e).2 ↔ (run m e).1 = true)) ∧
    (hasSideEffects m = true →
      buildTopLevelMatcher fac args config = .ok (m, c)) := by
  constructor
  · intro hfx
    refine ⟨by simp [buildTopLevelMatcher, h, hfx], ?_, ?_⟩
    · by_cases hm : (run m e).1 <;> simp [run, runAll, hm]
    · by_cases hm : (run m e).1
      · simp [run, runAll, hm]
      · simp [run, runAll, hm, run_no_print m e e hfx]
  · intro hfx
    simp [buildTopLevelMatcher, h, hfx]

/-- Witness for C2 at the side-effect-free tree of `-true` and at the
side-effecting tree of `-print`. -/
theorem default_print_injection_witness :
    buildMatcherTree defaultFac ["-true"] ⟨false⟩ false =
      .ok ([], .mlist [.mor [.mand [.mtrue]]], ⟨false⟩) ∧
    ((hasSideEffects (.mlist [.mor [.mand [.mtrue]]]) = false →
      buildTopLevelMatcher defaultFac ["-true"] ⟨false⟩ =
        .ok (.mand [.mlist [.mor [.mand [.mtrue]]], .printer], ⟨false⟩) ∧
      (run (.mand [.mlist [.mor [.mand [.mtrue]]], .printer]) ("p")).1 =
        (run (.mlist [.mor [.mand [.mtrue]]]) ("p")).1 ∧
      (Event.print ("p") ∈ (run (.mand [.mlist [.mor [.mand [.mtrue]]], .printer]) ("p")).2 ↔
        (run (.mlist [.mor [.mand [.mtrue]]]) ("p")).1 = true)) ∧
    (hasSideEffects (.mlist [.mor [.mand [.mtrue]]]) = true →
      buildTopLevelMatcher defaultFac ["-true"] ⟨false⟩ =
        .ok (.mlist [.mor [.mand [.mtrue]]], ⟨false⟩))) :=
  ⟨rfl, default_print_injection defaultFac ["-true"] ⟨false⟩ ⟨false⟩ []
    (.mlist [.mor [.mand [.mtrue]]]) rfl ("p")⟩

end Findutils
